import Mathlib

/-!
A shallow embedding of the session-state reconstruction and notification
escalation engine of toggdoro (src/main.rs), together with theorems settling
the specification claims about it.

Timestamps are modelled as integers counting seconds; durations are `Int`
(the source uses `i32` / chrono second counts, with magnitudes far below any
overflow boundary in every scenario considered here).  Fallible operations
return `Except Unit`.  The ambient effects of one refresh tick (the fetch
result from the time-entry source, the current wall clock, and the outcome
each notification backend would produce if invoked) are passed in explicitly
through an `Env` value.
-/

namespace Toggdoro

/-- The pomodoro phase, from `enum PomodoroMode` in src/main.rs. -/
inductive PomodoroMode where
  | Idle
  | Work
  | Break
deriving DecidableEq, Repr

/-- One external time entry, from `struct TimeEntry` in src/main.rs
(only the fields the reconstruction core reads: `pid`, `start`, `stop`,
`duration`, `description`, `tags`). -/
structure TimeEntry where
  pid : Option Nat
  start : Int
  stop : Option Int
  duration : Int
  description : String
  tags : List String
deriving DecidableEq, Repr

/-- The pomodoro configuration, from `struct PomodoroConfig` in src/main.rs. -/
structure PomodoroConfig where
  pomodoro_min : Nat
  short_break_min : Nat
  long_break_min : Nat
  long_break_after : Nat
deriving DecidableEq, Repr

/-- The shared mutable state, from `struct PomodoroState` in src/main.rs. -/
structure PomodoroState where
  npomodoros : Nat
  nnotifications : Nat
  ntnotifications : Nat
  mode : PomodoroMode
  finish_time : Int
  task_finish_time : Option Int
deriving DecidableEq, Repr

/-- Classify one entry as Work or Break, from `fn mode_of_entry` in
src/main.rs. -/
def mode_of_entry (e : TimeEntry) : PomodoroMode :=
  if e.description = "Pomodoro Break" then PomodoroMode.Break
  else if e.tags.any (fun x => x == "pomodoro-break") then PomodoroMode.Break
  else PomodoroMode.Work

/-- Digits-to-number accumulator, modelling `str::parse::<u32>` on an
all-digit capture: the value, or a parse error when it exceeds `u32::MAX`
(4294967295). -/
def parse_u32 (cs : List Char) : Option Nat :=
  let n := cs.foldl (fun a c => a * 10 + (c.toNat - 48)) 0
  if n ≤ 4294967295 then some n else none

/-- Whether a tag matches the capture pattern of the anchored digits-min
regex of `fn task_min` (a nonempty run of digits followed by the three
characters m, i, n and nothing else), returning the digit capture. -/
def tag_capture (tag : String) : Option (List Char) :=
  let cs := tag.data
  if 3 ≤ cs.length ∧ cs.drop (cs.length - 3) = ['m', 'i', 'n'] then
    let pre := cs.take (cs.length - 3)
    if pre ≠ [] ∧ pre.all Char.isDigit then some pre else none
  else none

/-- Scan a tag list for the first tag matching the sub-task pattern; a
matching capture that fails to parse as `u32` is an error. -/
def task_min_tags : List String → Except Unit (Option Nat)
  | [] => Except.ok none
  | t :: ts =>
    match tag_capture t with
    | some digits =>
      match parse_u32 digits with
      | some n => Except.ok (some n)
      | none => Except.error ()
    | none => task_min_tags ts

/-- Sub-task minutes of an entry, from `fn task_min` in src/main.rs. -/
def task_min (e : TimeEntry) : Except Unit (Option Nat) :=
  task_min_tags e.tags

/-- The extra-task-duration accumulation of `fn update` (src/main.rs lines
278-292): walk the earlier entries newest-first, skipping Break entries,
summing durations of entries matching the latest entry's description,
pid and tags, stopping at the first mismatch.  The argument list is the
earlier entries, newest first. -/
def extra_task_duration (latest : TimeEntry) : List TimeEntry → Int
  | [] => 0
  | x :: xs =>
    if mode_of_entry x = PomodoroMode.Break then extra_task_duration latest xs
    else if latest.description = x.description ∧ latest.pid = x.pid ∧
        latest.tags = x.tags then
      x.duration + extra_task_duration latest xs
    else 0

/-- One merge step of the streak walk (src/main.rs lines 305-308): the
accumulator holds the history buckets most-recently-pushed first (the head
plays the role of `history.last_mut()` of the source's `Vec`). -/
def mergeBucket (acc : List (PomodoroMode × Int)) (x : TimeEntry) :
    List (PomodoroMode × Int) :=
  match acc with
  | (m, d) :: rest =>
    if m = mode_of_entry x then (m, d + x.duration) :: rest
    else (mode_of_entry x, x.duration) :: (m, d) :: rest
  | [] => [(mode_of_entry x, x.duration)]

/-- The streak walk of `fn update` (src/main.rs lines 294-318), over the
earlier entries newest-first.  Returns the bucket list most-recent first
(the reverse of the source's `Vec` order). -/
def walkStreak (cfg : PomodoroConfig) :
    Int → List TimeEntry → List (PomodoroMode × Int) → List (PomodoroMode × Int)
  | _, [], acc => acc
  | last_start, x :: xs, acc =>
    match x.stop with
    | none => acc
    | some stp =>
      if 120 < last_start - stp then acc
      else
        match mergeBucket acc x with
        | (PomodoroMode.Break, d) :: rest =>
          if (cfg.long_break_min : Int) * 60 ≤ d then rest
          else walkStreak cfg x.start xs ((PomodoroMode.Break, d) :: rest)
        | acc2 => walkStreak cfg x.start xs acc2

/-- The streak history in the source's `Vec` order (first pushed bucket
first), as built by `fn update` from the earlier entries (newest first). -/
def streak_history (cfg : PomodoroConfig) (latest_start : Int)
    (rest : List TimeEntry) : List (PomodoroMode × Int) :=
  (walkStreak cfg latest_start rest []).reverse

instance instDecEqExcept {ε α : Type} [DecidableEq ε] [DecidableEq α] :
    DecidableEq (Except ε α) := fun x y =>
  match x, y with
  | Except.ok a, Except.ok b =>
    if h : a = b then isTrue (by rw [h])
    else isFalse (by intro hh; cases hh; exact h rfl)
  | Except.ok _, Except.error _ => isFalse (by intro hh; cases hh)
  | Except.error _, Except.ok _ => isFalse (by intro hh; cases hh)
  | Except.error a, Except.error b =>
    if h : a = b then isTrue (by rw [h])
    else isFalse (by intro hh; cases hh; exact h rfl)

/-- Which notification backends were actually invoked during one escalation
event.  The source invokes `notify_by_dbus`, `notify_by_slack` and
`notify_by_mail` in this order, each followed by the error-propagating
operator, so a failure of an earlier backend skips the later ones. -/
structure NotifyOutcome where
  dbusInvoked : Bool
  slackInvoked : Bool
  mailInvoked : Bool
deriving DecidableEq, Repr

/-- The three chained backend calls of one escalation event (src/main.rs
lines 367-369 and 384-386), given the outcome each backend would produce
if invoked. -/
def notifySeq (dbusRes slackRes mailRes : Except Unit Unit) :
    NotifyOutcome × Except Unit Unit :=
  match dbusRes with
  | Except.error e => (⟨true, false, false⟩, Except.error e)
  | Except.ok _ =>
    match slackRes with
    | Except.error e => (⟨true, true, false⟩, Except.error e)
    | Except.ok _ =>
      match mailRes with
      | Except.error e => (⟨true, true, true⟩, Except.error e)
      | Except.ok _ => (⟨true, true, true⟩, Except.ok ())

/-- The result of one refresh tick: the shared state after the tick, the
phase-level and task-level escalation events (if any) with their backend
invocations, and the value `fn update` returns. -/
structure UpdateOut where
  state : PomodoroState
  phaseEvent : Option NotifyOutcome
  taskEvent : Option NotifyOutcome
  result : Except Unit Unit
deriving DecidableEq, Repr

/-- The notification section of `fn update` (src/main.rs lines 342-392),
acting on the freshly reconstructed state `s`.  On a backend failure the
error-propagating operator aborts the function, so the counter updates that
follow the failed call are skipped while `s` itself (already written to the
shared cell in place) is kept. -/
def notification_step (s : PomodoroState) (now : Int)
    (dbusRes slackRes mailRes : Except Unit Unit) : UpdateOut :=
  if s.finish_time - now < 0 then
    if s.nnotifications = 0 ∨ (s.nnotifications = 1 ∧ s.finish_time - now < -300) ∨
        (s.nnotifications = 2 ∧ s.finish_time - now < -1800) then
      match notifySeq dbusRes slackRes mailRes with
      | (out, Except.error e) => ⟨s, some out, none, Except.error e⟩
      | (out, Except.ok _) =>
        ⟨{ s with nnotifications := s.nnotifications + 1, ntnotifications := 0 },
          some out, none, Except.ok ()⟩
    else ⟨{ s with ntnotifications := 0 }, none, none, Except.ok ()⟩
  else
    match s.task_finish_time with
    | some tft =>
      if (s.ntnotifications = 0 ∧ tft - now < 0) ∨
          (s.ntnotifications = 1 ∧ tft - now < -300) ∨
          (s.ntnotifications = 2 ∧ tft - now < -1800) then
        match notifySeq dbusRes slackRes mailRes with
        | (out, Except.error e) =>
          ⟨{ s with nnotifications := 0 }, none, some out, Except.error e⟩
        | (out, Except.ok _) =>
          ⟨{ s with nnotifications := 0, ntnotifications := s.ntnotifications + 1 },
            none, some out, Except.ok ()⟩
      else ⟨{ s with nnotifications := 0 }, none, none, Except.ok ()⟩
    | none =>
      ⟨{ s with nnotifications := 0, ntnotifications := 0 }, none, none, Except.ok ()⟩

/-- The ambient effects of one refresh tick: the fetch result from the
time-entry source (entries in ascending chronological order), the current
wall clock, and the outcome each notification backend would produce if
invoked during this tick. -/
structure Env where
  fetch : Except Unit (List TimeEntry)
  now : Int
  dbusRes : Except Unit Unit
  slackRes : Except Unit Unit
  mailRes : Except Unit Unit
deriving DecidableEq, Repr

/-- The nominal phase duration in seconds (src/main.rs lines 320-330),
chosen from the configuration by the phase of the latest entry and the
just-computed pomodoro count. -/
def nominal_duration (cfg : PomodoroConfig) (mode : PomodoroMode) (npom : Nat) :
    Int :=
  if mode = PomodoroMode.Break then
    if cfg.long_break_after ≤ npom then (cfg.long_break_min : Int) * 60
    else (cfg.short_break_min : Int) * 60
  else (cfg.pomodoro_min : Int) * 60

/-- The remaining phase duration (src/main.rs lines 320-335): the nominal
duration, less the first history bucket's accumulated duration when that
bucket has the same phase as the latest entry. -/
def phase_duration (cfg : PomodoroConfig) (mode : PomodoroMode)
    (history : List (PomodoroMode × Int)) : Int :=
  let nominal := nominal_duration cfg mode (history.length / 2 + 1)
  match history.head? with
  | some b => if b.1 = mode then nominal - b.2 else nominal
  | none => nominal

/-- The fields of the shared state rewritten by the reconstruction part of
`fn update` (src/main.rs lines 276-340) for a running latest entry, given
the already-scanned sub-task minutes `tm`; `rest` is the list of earlier
entries newest-first. -/
def reconstructed_state (cfg : PomodoroConfig) (latest : TimeEntry)
    (rest : List TimeEntry) (tm : Option Nat) (s : PomodoroState) :
    PomodoroState :=
  let mode := mode_of_entry latest
  let history := streak_history cfg latest.start rest
  let extra :=
    if mode = PomodoroMode.Work then extra_task_duration latest rest else 0
  { s with
      mode := mode,
      npomodoros := history.length / 2 + 1,
      finish_time := latest.start + phase_duration cfg mode history,
      task_finish_time := tm.map fun n => latest.start + ((n : Int) * 60 - extra) }

/-- One refresh tick, from `fn update` in src/main.rs (lines 261-395), as a
function of the configuration, the tick's ambient effects, and the shared
state left by the previous tick.  When `fn task_min` fails, the fields set
before the failing call (mode, count, phase finish time) keep their freshly
computed values while `task_finish_time` and the counters keep the previous
tick's values, and the error propagates. -/
def update (cfg : PomodoroConfig) (env : Env) (s : PomodoroState) : UpdateOut :=
  match env.fetch with
  | Except.error e => ⟨s, none, none, Except.error e⟩
  | Except.ok entries =>
    match entries.getLast? with
    | none => ⟨{ s with mode := PomodoroMode.Idle }, none, none, Except.ok ()⟩
    | some latest =>
      if 0 ≤ latest.duration then
        ⟨{ s with mode := PomodoroMode.Idle }, none, none, Except.ok ()⟩
      else
        match task_min latest with
        | Except.error e =>
          ⟨{ s with
              mode := mode_of_entry latest,
              npomodoros :=
                (streak_history cfg latest.start entries.dropLast.reverse).length
                  / 2 + 1,
              finish_time := latest.start +
                phase_duration cfg (mode_of_entry latest)
                  (streak_history cfg latest.start entries.dropLast.reverse) },
            none, none, Except.error e⟩
        | Except.ok tm =>
          notification_step
            (reconstructed_state cfg latest entries.dropLast.reverse tm s)
            env.now env.dbusRes env.slackRes env.mailRes

/-- One iteration of the driver loop `fn monitor` (src/main.rs lines
397-409): the loop calls `update`, prints any error, and always continues
to the next tick, so the state after one iteration is whatever `update`
left in the shared cell. -/
def monitorStep (cfg : PomodoroConfig) (env : Env) (s : PomodoroState) :
    PomodoroState :=
  (update cfg env s).state

/-- Successive evaluations of the notification section at the tick times in
the given list, with every backend succeeding: the final state and the
number of phase-level notification events fired.  Used to state the bound
on notifications during one continuous overrun. -/
def runOverrun (s : PomodoroState) : List Int → PomodoroState × Nat
  | [] => (s, 0)
  | t :: ts =>
    let out := notification_step s t (Except.ok ()) (Except.ok ()) (Except.ok ())
    let r := runOverrun out.state ts
    (r.1, (if out.phaseEvent.isSome then 1 else 0) + r.2)

/-- The default configuration values of src/main.rs lines 82-104. -/
def defaultConfig : PomodoroConfig := ⟨25, 5, 15, 4⟩

/-- A state with all derived fields at their zero values. -/
def zeroState : PomodoroState := ⟨0, 0, 0, PomodoroMode.Idle, 0, none⟩

/-- A state carrying nonzero derived data from an earlier cycle. -/
def leftoverState : PomodoroState := ⟨3, 2, 1, PomodoroMode.Work, 5, some 999⟩

/-- The closed 25-minute work entry of the two-entry scenario, with the
scenario's base time as parameter. -/
def scenarioClosed (T : Int) : TimeEntry :=
  ⟨none, T, some (T + 1500), 1500, "write report", []⟩

/-- The running work entry of the two-entry scenario, started where the
closed one stopped. -/
def scenarioRunning (T : Int) : TimeEntry :=
  ⟨none, T + 1500, none, -1, "write report", []⟩

/-- A running entry whose sub-task tag digits overflow `u32`. -/
def overflowTagEntry : TimeEntry :=
  ⟨none, 0, none, -1, "write report", ["4294967296min"]⟩

/-- A tick environment whose backends all succeed. -/
def okTickEnv (fetch : Except Unit (List TimeEntry)) (now : Int) : Env :=
  ⟨fetch, now, Except.ok (), Except.ok (), Except.ok ()⟩

/-- A closed break entry as long as the default long-break threshold. -/
def longBreakEntry : TimeEntry :=
  ⟨none, 0, some 0, 900, "Pomodoro Break", []⟩

theorem notifySeq_all_ok :
    notifySeq (Except.ok ()) (Except.ok ()) (Except.ok ()) =
      (⟨true, true, true⟩, Except.ok ()) := rfl

theorem notification_step_fire_err (s : PomodoroState) (now : Int)
    (d sl m : Except Unit Unit) (out : NotifyOutcome) (e : Unit)
    (hover : s.finish_time - now < 0)
    (hc : s.nnotifications = 0 ∨ (s.nnotifications = 1 ∧ s.finish_time - now < -300) ∨
      (s.nnotifications = 2 ∧ s.finish_time - now < -1800))
    (hns : notifySeq d sl m = (out, Except.error e)) :
    notification_step s now d sl m = ⟨s, some out, none, Except.error e⟩ := by
  unfold notification_step
  rw [if_pos hover, if_pos hc, hns]

theorem notification_step_fire_ok (s : PomodoroState) (now : Int)
    (d sl m : Except Unit Unit) (out : NotifyOutcome) (a : Unit)
    (hover : s.finish_time - now < 0)
    (hc : s.nnotifications = 0 ∨ (s.nnotifications = 1 ∧ s.finish_time - now < -300) ∨
      (s.nnotifications = 2 ∧ s.finish_time - now < -1800))
    (hns : notifySeq d sl m = (out, Except.ok a)) :
    notification_step s now d sl m =
      ⟨{ s with nnotifications := s.nnotifications + 1, ntnotifications := 0 },
        some out, none, Except.ok ()⟩ := by
  unfold notification_step
  rw [if_pos hover, if_pos hc, hns]

theorem notification_step_no_fire (s : PomodoroState) (now : Int)
    (d sl m : Except Unit Unit)
    (hover : s.finish_time - now < 0)
    (hc : ¬(s.nnotifications = 0 ∨ (s.nnotifications = 1 ∧ s.finish_time - now < -300) ∨
      (s.nnotifications = 2 ∧ s.finish_time - now < -1800))) :
    notification_step s now d sl m =
      ⟨{ s with ntnotifications := 0 }, none, none, Except.ok ()⟩ := by
  unfold notification_step
  rw [if_pos hover, if_neg hc]

theorem notification_step_task_none (s : PomodoroState) (now : Int)
    (d sl m : Except Unit Unit)
    (hover : ¬ s.finish_time - now < 0) (htft : s.task_finish_time = none) :
    notification_step s now d sl m =
      ⟨{ s with nnotifications := 0, ntnotifications := 0 }, none, none,
        Except.ok ()⟩ := by
  unfold notification_step
  rw [if_neg hover, htft]

theorem notification_step_task_fire_err (s : PomodoroState) (now : Int)
    (d sl m : Except Unit Unit) (tft : Int) (out : NotifyOutcome) (e : Unit)
    (hover : ¬ s.finish_time - now < 0) (htft : s.task_finish_time = some tft)
    (hc : (s.ntnotifications = 0 ∧ tft - now < 0) ∨
      (s.ntnotifications = 1 ∧ tft - now < -300) ∨
      (s.ntnotifications = 2 ∧ tft - now < -1800))
    (hns : notifySeq d sl m = (out, Except.error e)) :
    notification_step s now d sl m =
      ⟨{ s with nnotifications := 0 }, none, some out, Except.error e⟩ := by
  unfold notification_step
  rw [if_neg hover, htft]
  dsimp only
  rw [if_pos hc, hns]

theorem notification_step_task_fire_ok (s : PomodoroState) (now : Int)
    (d sl m : Except Unit Unit) (tft : Int) (out : NotifyOutcome) (a : Unit)
    (hover : ¬ s.finish_time - now < 0) (htft : s.task_finish_time = some tft)
    (hc : (s.ntnotifications = 0 ∧ tft - now < 0) ∨
      (s.ntnotifications = 1 ∧ tft - now < -300) ∨
      (s.ntnotifications = 2 ∧ tft - now < -1800))
    (hns : notifySeq d sl m = (out, Except.ok a)) :
    notification_step s now d sl m =
      ⟨{ s with nnotifications := 0, ntnotifications := s.ntnotifications + 1 },
        none, some out, Except.ok ()⟩ := by
  unfold notification_step
  rw [if_neg hover, htft]
  dsimp only
  rw [if_pos hc, hns]

theorem notification_step_task_no_fire (s : PomodoroState) (now : Int)
    (d sl m : Except Unit Unit) (tft : Int)
    (hover : ¬ s.finish_time - now < 0) (htft : s.task_finish_time = some tft)
    (hc : ¬((s.ntnotifications = 0 ∧ tft - now < 0) ∨
      (s.ntnotifications = 1 ∧ tft - now < -300) ∨
      (s.ntnotifications = 2 ∧ tft - now < -1800))) :
    notification_step s now d sl m =
      ⟨{ s with nnotifications := 0 }, none, none, Except.ok ()⟩ := by
  unfold notification_step
  rw [if_neg hover, htft]
  dsimp only
  rw [if_neg hc]

theorem notification_step_preserves (s : PomodoroState) (now : Int)
    (d sl m : Except Unit Unit) :
    (notification_step s now d sl m).state.mode = s.mode ∧
    (notification_step s now d sl m).state.npomodoros = s.npomodoros ∧
    (notification_step s now d sl m).state.finish_time = s.finish_time ∧
    (notification_step s now d sl m).state.task_finish_time = s.task_finish_time := by
  rcases hns : notifySeq d sl m with ⟨out, r⟩
  by_cases h1 : s.finish_time - now < 0
  · by_cases hc : s.nnotifications = 0 ∨
        (s.nnotifications = 1 ∧ s.finish_time - now < -300) ∨
        (s.nnotifications = 2 ∧ s.finish_time - now < -1800)
    · cases r with
      | error e =>
        rw [notification_step_fire_err s now d sl m out e h1 hc hns]
        exact ⟨rfl, rfl, rfl, rfl⟩
      | ok a =>
        rw [notification_step_fire_ok s now d sl m out a h1 hc hns]
        exact ⟨rfl, rfl, rfl, rfl⟩
    · rw [notification_step_no_fire s now d sl m h1 hc]
      exact ⟨rfl, rfl, rfl, rfl⟩
  · cases htft : s.task_finish_time with
    | none =>
      rw [notification_step_task_none s now d sl m h1 htft]
      exact ⟨rfl, rfl, rfl, htft⟩
    | some tft =>
      by_cases hc : (s.ntnotifications = 0 ∧ tft - now < 0) ∨
          (s.ntnotifications = 1 ∧ tft - now < -300) ∨
          (s.ntnotifications = 2 ∧ tft - now < -1800)
      · cases r with
        | error e =>
          rw [notification_step_task_fire_err s now d sl m tft out e h1 htft hc hns]
          exact ⟨rfl, rfl, rfl, htft⟩
        | ok a =>
          rw [notification_step_task_fire_ok s now d sl m tft out a h1 htft hc hns]
          exact ⟨rfl, rfl, rfl, htft⟩
      · rw [notification_step_task_no_fire s now d sl m tft h1 htft hc]
        exact ⟨rfl, rfl, rfl, htft⟩

theorem notification_step_overrun_ok (s : PomodoroState) (now : Int)
    (h : s.finish_time - now < 0) :
    notification_step s now (Except.ok ()) (Except.ok ()) (Except.ok ()) =
      if s.nnotifications = 0 ∨ (s.nnotifications = 1 ∧ s.finish_time - now < -300) ∨
          (s.nnotifications = 2 ∧ s.finish_time - now < -1800) then
        ⟨{ s with nnotifications := s.nnotifications + 1, ntnotifications := 0 },
          some ⟨true, true, true⟩, none, Except.ok ()⟩
      else ⟨{ s with ntnotifications := 0 }, none, none, Except.ok ()⟩ := by
  unfold notification_step
  rw [if_pos h]
  by_cases hc : s.nnotifications = 0 ∨
      (s.nnotifications = 1 ∧ s.finish_time - now < -300) ∨
      (s.nnotifications = 2 ∧ s.finish_time - now < -1800)
  · rw [if_pos hc, if_pos hc, notifySeq_all_ok]
  · rw [if_neg hc, if_neg hc]

theorem notification_step_reset_phase (s : PomodoroState) (now : Int)
    (h : ¬ s.finish_time - now < 0) (d sl m : Except Unit Unit) :
    (notification_step s now d sl m).state.nnotifications = 0 := by
  rcases hns : notifySeq d sl m with ⟨out, r⟩
  cases htft : s.task_finish_time with
  | none => rw [notification_step_task_none s now d sl m h htft]
  | some tft =>
    by_cases hc : (s.ntnotifications = 0 ∧ tft - now < 0) ∨
        (s.ntnotifications = 1 ∧ tft - now < -300) ∨
        (s.ntnotifications = 2 ∧ tft - now < -1800)
    · cases r with
      | error e => rw [notification_step_task_fire_err s now d sl m tft out e h htft hc hns]
      | ok a => rw [notification_step_task_fire_ok s now d sl m tft out a h htft hc hns]
    · rw [notification_step_task_no_fire s now d sl m tft h htft hc]

theorem notification_step_single (s : PomodoroState) (now : Int)
    (d sl m : Except Unit Unit) :
    (notification_step s now d sl m).phaseEvent = none ∨
    (notification_step s now d sl m).taskEvent = none := by
  rcases hns : notifySeq d sl m with ⟨out, r⟩
  by_cases h1 : s.finish_time - now < 0
  · by_cases hc : s.nnotifications = 0 ∨
        (s.nnotifications = 1 ∧ s.finish_time - now < -300) ∨
        (s.nnotifications = 2 ∧ s.finish_time - now < -1800)
    · cases r with
      | error e =>
        rw [notification_step_fire_err s now d sl m out e h1 hc hns]
        right ; rfl
      | ok a =>
        rw [notification_step_fire_ok s now d sl m out a h1 hc hns]
        right ; rfl
    · rw [notification_step_no_fire s now d sl m h1 hc]
      left ; rfl
  · cases htft : s.task_finish_time with
    | none =>
      rw [notification_step_task_none s now d sl m h1 htft]
      left ; rfl
    | some tft =>
      by_cases hc : (s.ntnotifications = 0 ∧ tft - now < 0) ∨
          (s.ntnotifications = 1 ∧ tft - now < -300) ∨
          (s.ntnotifications = 2 ∧ tft - now < -1800)
      · cases r with
        | error e =>
          rw [notification_step_task_fire_err s now d sl m tft out e h1 htft hc hns]
          left ; rfl
        | ok a =>
          rw [notification_step_task_fire_ok s now d sl m tft out a h1 htft hc hns]
          left ; rfl
      · rw [notification_step_task_no_fire s now d sl m tft h1 htft hc]
        left ; rfl

theorem runOverrun_count (nows : List Int) :
    ∀ s : PomodoroState, (∀ t ∈ nows, 0 < t - s.finish_time) →
      (runOverrun s nows).1.nnotifications =
        s.nnotifications + (runOverrun s nows).2 ∧
      ((runOverrun s nows).2 ≠ 0 →
        s.nnotifications + (runOverrun s nows).2 ≤ 3) := by
  induction nows with
  | nil => exact fun s _ => ⟨rfl, fun hk => absurd rfl hk⟩
  | cons t ts ih =>
    intro s h
    have ht : 0 < t - s.finish_time := h t (by simp)
    have hover : s.finish_time - t < 0 := by omega
    have hstep := notification_step_overrun_ok s t hover
    by_cases hcnd : s.nnotifications = 0 ∨
        (s.nnotifications = 1 ∧ s.finish_time - t < -300) ∨
        (s.nnotifications = 2 ∧ s.finish_time - t < -1800)
    · rw [if_pos hcnd] at hstep
      have hnn : s.nnotifications ≤ 2 := by
        rcases hcnd with h0 | ⟨ha, _⟩ | ⟨ha, _⟩ <;> omega
      rw [runOverrun, hstep]
      dsimp only [Option.isSome]
      rw [if_pos (rfl : true = true)]
      set s2 : PomodoroState :=
        { s with nnotifications := s.nnotifications + 1, ntnotifications := 0 }
        with hs2
      have hfin : s2.finish_time = s.finish_time := rfl
      have hs2nn : s2.nnotifications = s.nnotifications + 1 := rfl
      have hmem : ∀ t' ∈ ts, 0 < t' - s2.finish_time := by
        intro t' ht'
        rw [hfin]
        exact h t' (List.mem_cons_of_mem _ ht')
      obtain ⟨ih1, ih2⟩ := ih s2 hmem
      constructor
      · rw [ih1, hs2nn]
        omega
      · intro _
        rcases Nat.eq_zero_or_pos (runOverrun s2 ts).2 with hk0 | hk0
        · rw [hk0]
          omega
        · have hle := ih2 (by omega)
          rw [hs2nn] at hle
          omega
    · rw [if_neg hcnd] at hstep
      rw [runOverrun, hstep]
      dsimp only [Option.isSome]
      rw [if_neg Bool.false_ne_true]
      set s2 : PomodoroState := { s with ntnotifications := 0 } with hs2
      have hfin : s2.finish_time = s.finish_time := rfl
      have hs2nn : s2.nnotifications = s.nnotifications := rfl
      have hmem : ∀ t' ∈ ts, 0 < t' - s2.finish_time := by
        intro t' ht'
        rw [hfin]
        exact h t' (List.mem_cons_of_mem _ ht')
      obtain ⟨ih1, ih2⟩ := ih s2 hmem
      constructor
      · rw [ih1, hs2nn]
        omega
      · intro hk
        have hle := ih2 (by omega)
        rw [hs2nn] at hle
        omega

theorem notification_step_task_invariant (s : PomodoroState) (now : Int)
    (d sl m : Except Unit Unit)
    (hok : (notification_step s now d sl m).result = Except.ok ()) :
    ((notification_step s now d sl m).state.task_finish_time = none →
      (notification_step s now d sl m).state.ntnotifications = 0) ∧
    ((notification_step s now d sl m).state.finish_time - now < 0 →
      (notification_step s now d sl m).state.ntnotifications = 0) := by
  rcases hns : notifySeq d sl m with ⟨out, r⟩
  by_cases h1 : s.finish_time - now < 0
  · by_cases hc : s.nnotifications = 0 ∨
        (s.nnotifications = 1 ∧ s.finish_time - now < -300) ∨
        (s.nnotifications = 2 ∧ s.finish_time - now < -1800)
    · cases r with
      | error e =>
        rw [notification_step_fire_err s now d sl m out e h1 hc hns] at hok
        exact absurd hok (by simp)
      | ok a =>
        rw [notification_step_fire_ok s now d sl m out a h1 hc hns]
        exact ⟨fun _ => rfl, fun _ => rfl⟩
    · rw [notification_step_no_fire s now d sl m h1 hc]
      exact ⟨fun _ => rfl, fun _ => rfl⟩
  · cases htft : s.task_finish_time with
    | none =>
      rw [notification_step_task_none s now d sl m h1 htft]
      exact ⟨fun _ => rfl, fun _ => rfl⟩
    | some tft =>
      by_cases hc : (s.ntnotifications = 0 ∧ tft - now < 0) ∨
          (s.ntnotifications = 1 ∧ tft - now < -300) ∨
          (s.ntnotifications = 2 ∧ tft - now < -1800)
      · cases r with
        | error e =>
          rw [notification_step_task_fire_err s now d sl m tft out e h1 htft hc hns] at hok
          exact absurd hok (by simp)
        | ok a =>
          rw [notification_step_task_fire_ok s now d sl m tft out a h1 htft hc hns]
          refine ⟨fun hnone => ?_, fun hfin => ?_⟩
          · exact absurd hnone (by simp [htft])
          · exact absurd (show s.finish_time - now < 0 from hfin) h1
      · rw [notification_step_task_no_fire s now d sl m tft h1 htft hc]
        refine ⟨fun hnone => ?_, fun hfin => ?_⟩
        · exact absurd hnone (by simp [htft])
        · exact absurd (show s.finish_time - now < 0 from hfin) h1

/-- Claim C9: classify (`mode_of_entry`) is a total, deterministic function
on one time entry returning Break exactly when the entry's description
equals "Pomodoro Break" or its tag list contains the literal tag
"pomodoro-break", and Work in every other case. -/
theorem claim_classify (e : TimeEntry) :
    (mode_of_entry e = PomodoroMode.Break ↔
      (e.description = "Pomodoro Break" ∨ "pomodoro-break" ∈ e.tags)) ∧
    (mode_of_entry e = PomodoroMode.Work ↔
      ¬(e.description = "Pomodoro Break" ∨ "pomodoro-break" ∈ e.tags)) := by
  have hany : (e.tags.any fun x => x == "pomodoro-break") = true ↔
      "pomodoro-break" ∈ e.tags := by
    simp [List.any_eq_true]
  unfold mode_of_entry
  by_cases h1 : e.description = "Pomodoro Break" <;>
    by_cases h2 : "pomodoro-break" ∈ e.tags <;>
      simp [h1, h2, hany]

/-- Claim C1, amended: for an empty entry history, or one whose last entry
is closed (duration at least 0), `update` sets the phase to Idle but leaves
every other field of the shared state exactly as the previous tick left it:
the counters and finish times are retained, not zeroed. -/
theorem claim_idle_retains (cfg : PomodoroConfig) (env : Env)
    (s : PomodoroState) (entries : List TimeEntry)
    (hf : env.fetch = Except.ok entries)
    (h : entries = [] ∨
      ∃ latest, entries.getLast? = some latest ∧ 0 ≤ latest.duration) :
    update cfg env s =
      ⟨{ s with mode := PomodoroMode.Idle }, none, none, Except.ok ()⟩ := by
  unfold update
  rw [hf]
  rcases h with rfl | ⟨latest, hl, hd⟩
  · rfl
  · dsimp only
    rw [hl]
    dsimp only
    rw [if_pos hd]

theorem claim_idle_retains_witness :
    (okTickEnv (Except.ok []) 0).fetch = Except.ok [] ∧
    (([] : List TimeEntry) = [] ∨
      ∃ latest, ([] : List TimeEntry).getLast? = some latest ∧
        0 ≤ latest.duration) ∧
    update defaultConfig (okTickEnv (Except.ok []) 0) leftoverState =
      ⟨{ leftoverState with mode := PomodoroMode.Idle }, none, none,
        Except.ok ()⟩ :=
  ⟨rfl, Or.inl rfl,
    claim_idle_retains defaultConfig (okTickEnv (Except.ok []) 0)
      leftoverState [] rfl (Or.inl rfl)⟩

/-- Claim C1 is false as stated: on an empty history, the counters and the
task finish time of the previous tick survive unchanged, so reconstruction
does not zero them.  Here the previous tick left pomodoro count 3, phase
counter 2, task counter 1 and a task finish time, and all of them remain
after the idle refresh. -/
theorem claim_idle_retains_cex :
    (update defaultConfig (okTickEnv (Except.ok []) 0) leftoverState).state.mode
        = PomodoroMode.Idle ∧
    (update defaultConfig (okTickEnv (Except.ok []) 0)
        leftoverState).state.npomodoros = 3 ∧
    (update defaultConfig (okTickEnv (Except.ok []) 0)
        leftoverState).state.nnotifications = 2 ∧
    (update defaultConfig (okTickEnv (Except.ok []) 0)
        leftoverState).state.ntnotifications = 1 ∧
    (update defaultConfig (okTickEnv (Except.ok []) 0)
        leftoverState).state.task_finish_time = some 999 ∧
    (update defaultConfig (okTickEnv (Except.ok []) 0)
        leftoverState).state.nnotifications ≠ 0 := by
  refine ⟨rfl, rfl, rfl, rfl, rfl, ?_⟩
  decide

/-- Claim C7: when the time-entry fetch fails, `update` returns the error
with the shared state exactly unchanged and no notification event, and the
driver loop (`monitorStep`, which logs and continues) republishes the very
same state for the next tick. -/
theorem claim_fetch_error (cfg : PomodoroConfig) (env : Env)
    (s : PomodoroState) (hf : env.fetch = Except.error ()) :
    update cfg env s = ⟨s, none, none, Except.error ()⟩ ∧
    monitorStep cfg env s = s := by
  unfold monitorStep update
  rw [hf]
  exact ⟨rfl, rfl⟩

theorem claim_fetch_error_witness :
    (⟨Except.error (), 0, Except.ok (), Except.ok (), Except.ok ()⟩ : Env).fetch
        = Except.error () ∧
    update defaultConfig
        ⟨Except.error (), 0, Except.ok (), Except.ok (), Except.ok ()⟩
        leftoverState = ⟨leftoverState, none, none, Except.error ()⟩ ∧
    monitorStep defaultConfig
        ⟨Except.error (), 0, Except.ok (), Except.ok (), Except.ok ()⟩
        leftoverState = leftoverState := by
  refine ⟨rfl, ?_, ?_⟩
  · exact (claim_fetch_error defaultConfig _ leftoverState rfl).1
  · exact (claim_fetch_error defaultConfig _ leftoverState rfl).2

/-- Claim C10: within one refresh cycle at most one notification event is
emitted: the phase-overrun and task-overrun notifications are exclusive
branches of the same evaluation, so `update` never produces both a
phase-level and a task-level event in the same tick. -/
theorem claim_single_event (cfg : PomodoroConfig) (env : Env)
    (s : PomodoroState) :
    (update cfg env s).phaseEvent = none ∨
    (update cfg env s).taskEvent = none := by
  cases hf : env.fetch with
  | error e => left ; simp [update, hf]
  | ok entries =>
    cases hl : entries.getLast? with
    | none => left ; simp [update, hf, hl]
    | some latest =>
      by_cases hd : 0 ≤ latest.duration
      · left ; simp [update, hf, hl, hd]
      · cases htm : task_min latest with
        | error e => left ; simp [update, hf, hl, hd, htm]
        | ok tm =>
          have hu : update cfg env s =
              notification_step
                (reconstructed_state cfg latest entries.dropLast.reverse tm s)
                env.now env.dbusRes env.slackRes env.mailRes := by
            simp [update, hf, hl, hd, htm]
          rw [hu]
          exact notification_step_single _ _ _ _ _

/-- Claim C2, amended: for the phase-level overrun magnitude d equal to
now minus finish time, evaluated once per tick with all backends
succeeding, and for every value of the escalation counter: a notification
fires only when d is strictly positive (at d equal to 0 the evaluation
takes the not-yet-due branch and resets the counter), and then exactly
when the counter is 0, or 1 with d above 300, or 2 with d above 1800
(silent in every other case); each firing increments the counter; on any
evaluation with d at most 0 the counter resets to 0; and over any run of
overrun ticks starting from counter 0 at most 3 notifications fire. -/
theorem claim_escalation (s : PomodoroState) (now : Int) :
    (0 < now - s.finish_time →
      ((notification_step s now (Except.ok ()) (Except.ok ())
          (Except.ok ())).phaseEvent.isSome = true ↔
        (s.nnotifications = 0 ∨
          (s.nnotifications = 1 ∧ 300 < now - s.finish_time) ∨
          (s.nnotifications = 2 ∧ 1800 < now - s.finish_time)))) ∧
    (0 < now - s.finish_time →
      (notification_step s now (Except.ok ()) (Except.ok ())
          (Except.ok ())).phaseEvent.isSome = true →
      (notification_step s now (Except.ok ()) (Except.ok ())
          (Except.ok ())).state.nnotifications = s.nnotifications + 1) ∧
    (now - s.finish_time ≤ 0 →
      (notification_step s now (Except.ok ()) (Except.ok ())
          (Except.ok ())).state.nnotifications = 0) ∧
    (∀ nows : List Int, (∀ t ∈ nows, 0 < t - s.finish_time) →
      s.nnotifications = 0 → (runOverrun s nows).2 ≤ 3) := by
  refine ⟨?_, ?_, ?_, ?_⟩
  · intro hd
    have hover : s.finish_time - now < 0 := by omega
    rw [notification_step_overrun_ok s now hover]
    have hiff : (s.nnotifications = 0 ∨
        (s.nnotifications = 1 ∧ s.finish_time - now < -300) ∨
        (s.nnotifications = 2 ∧ s.finish_time - now < -1800)) ↔
        (s.nnotifications = 0 ∨
          (s.nnotifications = 1 ∧ 300 < now - s.finish_time) ∨
          (s.nnotifications = 2 ∧ 1800 < now - s.finish_time)) := by omega
    by_cases hc : s.nnotifications = 0 ∨
        (s.nnotifications = 1 ∧ s.finish_time - now < -300) ∨
        (s.nnotifications = 2 ∧ s.finish_time - now < -1800)
    · rw [if_pos hc]
      exact iff_of_true rfl (hiff.mp hc)
    · rw [if_neg hc]
      exact iff_of_false (by simp) (fun hD => hc (hiff.mpr hD))
  · intro hd hsome
    have hover : s.finish_time - now < 0 := by omega
    rw [notification_step_overrun_ok s now hover] at hsome ⊢
    by_cases hc : s.nnotifications = 0 ∨
        (s.nnotifications = 1 ∧ s.finish_time - now < -300) ∨
        (s.nnotifications = 2 ∧ s.finish_time - now < -1800)
    · rw [if_pos hc]
    · rw [if_neg hc] at hsome
      exact absurd hsome (by simp)
  · intro hle
    exact notification_step_reset_phase s now (by omega) _ _ _
  · intro nows hrun hzero
    rcases Nat.eq_zero_or_pos (runOverrun s nows).2 with h0 | hpos
    · omega
    · have hb := (runOverrun_count nows s hrun).2 (by omega)
      omega

theorem claim_escalation_witness :
    (0 < (400 : Int) - (⟨0, 1, 0, PomodoroMode.Work, 0, none⟩ :
        PomodoroState).finish_time ∧
      ((notification_step ⟨0, 1, 0, PomodoroMode.Work, 0, none⟩ 400
          (Except.ok ()) (Except.ok ()) (Except.ok ())).phaseEvent.isSome = true ↔
        ((⟨0, 1, 0, PomodoroMode.Work, 0, none⟩ :
            PomodoroState).nnotifications = 0 ∨
          ((⟨0, 1, 0, PomodoroMode.Work, 0, none⟩ :
              PomodoroState).nnotifications = 1 ∧
            300 < (400 : Int) - (⟨0, 1, 0, PomodoroMode.Work, 0, none⟩ :
              PomodoroState).finish_time) ∨
          ((⟨0, 1, 0, PomodoroMode.Work, 0, none⟩ :
              PomodoroState).nnotifications = 2 ∧
            1800 < (400 : Int) - (⟨0, 1, 0, PomodoroMode.Work, 0, none⟩ :
              PomodoroState).finish_time)))) ∧
    ((notification_step ⟨0, 1, 0, PomodoroMode.Work, 0, none⟩ 400
        (Except.ok ()) (Except.ok ()) (Except.ok ())).phaseEvent.isSome = true ∧
      (notification_step ⟨0, 1, 0, PomodoroMode.Work, 0, none⟩ 400
          (Except.ok ()) (Except.ok ()) (Except.ok ())).state.nnotifications =
        (⟨0, 1, 0, PomodoroMode.Work, 0, none⟩ :
          PomodoroState).nnotifications + 1) ∧
    ((-5 : Int) - (⟨0, 2, 0, PomodoroMode.Work, 0, none⟩ :
        PomodoroState).finish_time ≤ 0 ∧
      (notification_step ⟨0, 2, 0, PomodoroMode.Work, 0, none⟩ (-5)
          (Except.ok ()) (Except.ok ()) (Except.ok ())).state.nnotifications = 0) ∧
    ((∀ t ∈ [1, 400, 2000, 5000], 0 < t - zeroState.finish_time) ∧
      zeroState.nnotifications = 0 ∧
      (runOverrun zeroState [1, 400, 2000, 5000]).2 ≤ 3) :=
  ⟨⟨by decide,
    (claim_escalation ⟨0, 1, 0, PomodoroMode.Work, 0, none⟩ 400).1 (by decide)⟩,
   ⟨by decide,
    (claim_escalation ⟨0, 1, 0, PomodoroMode.Work, 0, none⟩ 400).2.1
      (by decide) (by decide)⟩,
   ⟨by decide,
    (claim_escalation ⟨0, 2, 0, PomodoroMode.Work, 0, none⟩ (-5)).2.2.1
      (by decide)⟩,
   ⟨by decide, rfl,
    (claim_escalation zeroState 5).2.2.2 [1, 400, 2000, 5000]
      (by decide) rfl⟩⟩

/-- Claim C2 is false as stated at the boundary d = 0: with the counter at
0 and the current time exactly equal to the phase finish time (the running
entry starts at 1500 and finishes its nominal 25 minutes at 3000), the
claim requires a notification, but the evaluation takes the not-overrun
branch and emits none. -/
theorem claim_escalation_cex :
    zeroState.nnotifications = 0 ∧
    (okTickEnv (Except.ok [scenarioRunning 0]) 3000).now -
      (update defaultConfig (okTickEnv (Except.ok [scenarioRunning 0]) 3000)
        zeroState).state.finish_time = 0 ∧
    (update defaultConfig (okTickEnv (Except.ok [scenarioRunning 0]) 3000)
      zeroState).phaseEvent = none := by
  decide

/-- Claim C6, amended: when any backend in the dbus, slack, mail chain
fails during an escalation event (phase-level or task-level), the backends
after the failing one are not invoked for that event, the corresponding
escalation counter is not incremented, and the error propagates out of
the evaluation; the state snapshot reconstructed before the notification
step stays published with its pre-event counters.  The first three
conjuncts give the invocation sets for a failure at each chain position;
the last two show the effect of any failing chain on a firing phase-level
and a firing task-level event respectively. -/
theorem claim_backend_failure (s : PomodoroState) (now : Int)
    (d sl m : Except Unit Unit) (out : NotifyOutcome) (e : Unit)
    (herr : notifySeq d sl m = (out, Except.error e)) :
    (∀ sl2 m2 : Except Unit Unit,
      notifySeq (Except.error ()) sl2 m2 =
        (⟨true, false, false⟩, Except.error ())) ∧
    (∀ m2 : Except Unit Unit,
      notifySeq (Except.ok ()) (Except.error ()) m2 =
        (⟨true, true, false⟩, Except.error ())) ∧
    (notifySeq (Except.ok ()) (Except.ok ()) (Except.error ()) =
      (⟨true, true, true⟩, Except.error ())) ∧
    (s.finish_time - now < 0 →
      (s.nnotifications = 0 ∨
        (s.nnotifications = 1 ∧ s.finish_time - now < -300) ∨
        (s.nnotifications = 2 ∧ s.finish_time - now < -1800)) →
      notification_step s now d sl m = ⟨s, some out, none, Except.error e⟩) ∧
    (∀ tft : Int, ¬ s.finish_time - now < 0 → s.task_finish_time = some tft →
      ((s.ntnotifications = 0 ∧ tft - now < 0) ∨
        (s.ntnotifications = 1 ∧ tft - now < -300) ∨
        (s.ntnotifications = 2 ∧ tft - now < -1800)) →
      notification_step s now d sl m =
        ⟨{ s with nnotifications := 0 }, none, some out, Except.error e⟩) := by
  refine ⟨fun sl2 m2 => rfl, fun m2 => rfl, rfl, ?_, ?_⟩
  · intro hover hfire
    exact notification_step_fire_err s now d sl m out e hover hfire herr
  · intro tft hover htft hfire
    exact notification_step_task_fire_err s now d sl m tft out e
      hover htft hfire herr

theorem claim_backend_failure_witness :
    notifySeq (Except.ok ()) (Except.error ()) (Except.ok ()) =
      (⟨true, true, false⟩, Except.error ()) ∧
    notifySeq (Except.error ()) (Except.ok ()) (Except.ok ()) =
      (⟨true, false, false⟩, Except.error ()) ∧
    (leftoverState.finish_time - 4000 < 0 →
      (leftoverState.nnotifications = 0 ∨
        (leftoverState.nnotifications = 1 ∧
          leftoverState.finish_time - 4000 < -300) ∨
        (leftoverState.nnotifications = 2 ∧
          leftoverState.finish_time - 4000 < -1800)) →
      notification_step leftoverState 4000 (Except.error ()) (Except.ok ())
          (Except.ok ()) =
        ⟨leftoverState, some ⟨true, false, false⟩, none, Except.error ()⟩) ∧
    notification_step leftoverState 4000 (Except.error ()) (Except.ok ())
        (Except.ok ()) =
      ⟨leftoverState, some ⟨true, false, false⟩, none, Except.error ()⟩ ∧
    ¬ (⟨0, 0, 0, PomodoroMode.Work, 1000, some 10⟩ :
        PomodoroState).finish_time - 500 < 0 ∧
    (⟨0, 0, 0, PomodoroMode.Work, 1000, some 10⟩ :
        PomodoroState).task_finish_time = some 10 ∧
    notification_step ⟨0, 0, 0, PomodoroMode.Work, 1000, some 10⟩ 500
        (Except.ok ()) (Except.error ()) (Except.ok ()) =
      ⟨⟨0, 0, 0, PomodoroMode.Work, 1000, some 10⟩, none,
        some ⟨true, true, false⟩, Except.error ()⟩ :=
  ⟨rfl, rfl,
   (claim_backend_failure leftoverState 4000 (Except.error ()) (Except.ok ())
      (Except.ok ()) ⟨true, false, false⟩ () rfl).2.2.2.1,
   (claim_backend_failure leftoverState 4000 (Except.error ()) (Except.ok ())
      (Except.ok ()) ⟨true, false, false⟩ () rfl).2.2.2.1 (by decide)
      (by decide),
   by decide, rfl,
   (claim_backend_failure ⟨0, 0, 0, PomodoroMode.Work, 1000, some 10⟩ 500
      (Except.ok ()) (Except.error ()) (Except.ok ()) ⟨true, true, false⟩ ()
      rfl).2.2.2.2 10 (by decide) rfl (by decide)⟩

/-- Claim C6 is false as stated: with the dbus backend failing during a
phase-overrun escalation event, the other backends are not invoked, the
counter stays at 0 instead of being incremented, and the tick returns the
error. -/
theorem claim_backend_failure_cex :
    (update defaultConfig
        ⟨Except.ok [scenarioRunning 0], 4000, Except.error (), Except.ok (),
          Except.ok ()⟩ zeroState).phaseEvent =
      some ⟨true, false, false⟩ ∧
    (update defaultConfig
        ⟨Except.ok [scenarioRunning 0], 4000, Except.error (), Except.ok (),
          Except.ok ()⟩ zeroState).state.nnotifications = 0 ∧
    (update defaultConfig
        ⟨Except.ok [scenarioRunning 0], 4000, Except.error (), Except.ok (),
          Except.ok ()⟩ zeroState).result = Except.error () := by
  decide

/-- Claim C8: after a refresh evaluation that runs to completion (the fetch
succeeded, the latest entry is running, and update returned Ok), the
task-level escalation counter is 0 whenever the task finish time is absent
or whenever the phase-level overrun itself is active. -/
theorem claim_task_counter (cfg : PomodoroConfig) (env : Env)
    (s : PomodoroState) (entries : List TimeEntry) (latest : TimeEntry)
    (hf : env.fetch = Except.ok entries) (hl : entries.getLast? = some latest)
    (hd : latest.duration < 0)
    (hok : (update cfg env s).result = Except.ok ()) :
    ((update cfg env s).state.task_finish_time = none →
      (update cfg env s).state.ntnotifications = 0) ∧
    ((update cfg env s).state.finish_time - env.now < 0 →
      (update cfg env s).state.ntnotifications = 0) := by
  have hneg : ¬ 0 ≤ latest.duration := by omega
  cases htm : task_min latest with
  | error e =>
    have herr : (update cfg env s).result = Except.error e := by
      simp [update, hf, hl, hneg, htm]
    rw [herr] at hok
    exact Except.noConfusion hok
  | ok tm =>
    have hu : update cfg env s =
        notification_step
          (reconstructed_state cfg latest entries.dropLast.reverse tm s)
          env.now env.dbusRes env.slackRes env.mailRes := by
      simp [update, hf, hl, hneg, htm]
    rw [hu] at hok ⊢
    exact notification_step_task_invariant _ _ _ _ _ hok

theorem claim_task_counter_witness :
    (okTickEnv (Except.ok [scenarioRunning 0]) 0).fetch =
      Except.ok [scenarioRunning 0] ∧
    [scenarioRunning 0].getLast? = some (scenarioRunning 0) ∧
    (scenarioRunning 0).duration < 0 ∧
    (update defaultConfig (okTickEnv (Except.ok [scenarioRunning 0]) 0)
      zeroState).result = Except.ok () ∧
    (((update defaultConfig (okTickEnv (Except.ok [scenarioRunning 0]) 0)
        zeroState).state.task_finish_time = none →
      (update defaultConfig (okTickEnv (Except.ok [scenarioRunning 0]) 0)
        zeroState).state.ntnotifications = 0) ∧
    ((update defaultConfig (okTickEnv (Except.ok [scenarioRunning 0]) 0)
        zeroState).state.finish_time -
        (okTickEnv (Except.ok [scenarioRunning 0]) 0).now < 0 →
      (update defaultConfig (okTickEnv (Except.ok [scenarioRunning 0]) 0)
        zeroState).state.ntnotifications = 0)) :=
  ⟨rfl, rfl, by decide, by decide,
    claim_task_counter defaultConfig
      (okTickEnv (Except.ok [scenarioRunning 0]) 0) zeroState
      [scenarioRunning 0] (scenarioRunning 0) rfl rfl (by decide) (by decide)⟩

/-- Claim C5, amended: a sub-task tag whose numeric capture fails to parse
(digits overflowing u32) makes `update` return an error for that cycle
instead of completing with the sub-task treated as absent: the fields
written before the failing scan (phase, count, phase finish time) carry
the freshly computed values, while `task_finish_time`, the counters and
the events are exactly those of the previous tick, and no notification is
evaluated. -/
theorem claim_tag_parse_error (cfg : PomodoroConfig) (env : Env)
    (s : PomodoroState) (entries : List TimeEntry) (latest : TimeEntry)
    (hf : env.fetch = Except.ok entries) (hl : entries.getLast? = some latest)
    (hd : latest.duration < 0) (htm : task_min latest = Except.error ()) :
    update cfg env s =
      ⟨{ s with
          mode := mode_of_entry latest,
          npomodoros :=
            (streak_history cfg latest.start entries.dropLast.reverse).length
              / 2 + 1,
          finish_time := latest.start +
            phase_duration cfg (mode_of_entry latest)
              (streak_history cfg latest.start entries.dropLast.reverse) },
        none, none, Except.error ()⟩ := by
  have hneg : ¬ 0 ≤ latest.duration := by omega
  simp [update, hf, hl, hneg, htm]

theorem claim_tag_parse_error_witness :
    (okTickEnv (Except.ok [overflowTagEntry]) 0).fetch =
      Except.ok [overflowTagEntry] ∧
    [overflowTagEntry].getLast? = some overflowTagEntry ∧
    overflowTagEntry.duration < 0 ∧
    task_min overflowTagEntry = Except.error () ∧
    update defaultConfig (okTickEnv (Except.ok [overflowTagEntry]) 0)
        leftoverState =
      ⟨{ leftoverState with
          mode := mode_of_entry overflowTagEntry,
          npomodoros :=
            (streak_history defaultConfig overflowTagEntry.start
              [overflowTagEntry].dropLast.reverse).length / 2 + 1,
          finish_time := overflowTagEntry.start +
            phase_duration defaultConfig (mode_of_entry overflowTagEntry)
              (streak_history defaultConfig overflowTagEntry.start
                [overflowTagEntry].dropLast.reverse) },
        none, none, Except.error ()⟩ :=
  ⟨rfl, rfl, by decide, rfl,
    claim_tag_parse_error defaultConfig
      (okTickEnv (Except.ok [overflowTagEntry]) 0) leftoverState
      [overflowTagEntry] overflowTagEntry rfl rfl (by decide) rfl⟩

/-- Claim C5 is false as stated: with a running entry whose sub-task tag
digits overflow u32 (the tag reads 4294967296min), the whole update aborts
with an error for that cycle, and the task finish time keeps the previous
tick's value (here some 999) rather than being treated as absent. -/
theorem claim_tag_parse_error_cex :
    (update defaultConfig (okTickEnv (Except.ok [overflowTagEntry]) 0)
      leftoverState).result = Except.error () ∧
    (update defaultConfig (okTickEnv (Except.ok [overflowTagEntry]) 0)
      leftoverState).state.task_finish_time = some 999 ∧
    (update defaultConfig (okTickEnv (Except.ok [overflowTagEntry]) 0)
      leftoverState).state.task_finish_time ≠ none := by
  decide

theorem mergeBucket_shape (acc : List (PomodoroMode × Int)) (x : TimeEntry) :
    (∃ m d rest, acc = (m, d) :: rest ∧ m = mode_of_entry x ∧
      mergeBucket acc x = (m, d + x.duration) :: rest) ∨
    mergeBucket acc x = (mode_of_entry x, x.duration) :: acc := by
  cases acc with
  | nil => right ; rfl
  | cons hd tl =>
    obtain ⟨m, d⟩ := hd
    by_cases h : m = mode_of_entry x
    · exact Or.inl ⟨m, d, tl, rfl, h, by simp [mergeBucket, h]⟩
    · right
      simp [mergeBucket, h]

theorem walkStreak_break_bound (cfg : PomodoroConfig) (es : List TimeEntry) :
    ∀ (ls : Int) (acc : List (PomodoroMode × Int)),
      (∀ b ∈ acc, b.1 = PomodoroMode.Break →
        b.2 < (cfg.long_break_min : Int) * 60) →
      ∀ b ∈ walkStreak cfg ls es acc, b.1 = PomodoroMode.Break →
        b.2 < (cfg.long_break_min : Int) * 60 := by
  induction es with
  | nil =>
    intro ls acc hacc b hb
    rw [walkStreak] at hb
    exact hacc b hb
  | cons x xs ih =>
    intro ls acc hacc
    rw [walkStreak]
    cases hstop : x.stop with
    | none => exact hacc
    | some stp =>
      dsimp only
      by_cases hgap : 120 < ls - stp
      · rw [if_pos hgap]
        exact hacc
      · rw [if_neg hgap]
        rcases mergeBucket_shape acc x with ⟨m, d0, rest0, hshape, hm, heq⟩ | heq
        · rw [heq]
          cases m with
          | Break =>
            dsimp only
            by_cases hthr : (cfg.long_break_min : Int) * 60 ≤ d0 + x.duration
            · rw [if_pos hthr]
              intro b hb hbr
              have hbacc : b ∈ acc := by
                rw [hshape] ; exact List.mem_cons_of_mem _ hb
              exact hacc b hbacc hbr
            · rw [if_neg hthr]
              refine ih x.start _ ?_
              intro b hb hbr
              rcases List.mem_cons.mp hb with rfl | hbt
              · simpa using not_le.mp hthr
              · have hbacc : b ∈ acc := by
                  rw [hshape] ; exact List.mem_cons_of_mem _ hbt
                exact hacc b hbacc hbr
          | Work =>
            dsimp only
            refine ih x.start _ ?_
            intro b hb hbr
            rcases List.mem_cons.mp hb with rfl | hbt
            · exact absurd hbr (by simp)
            · have hbacc : b ∈ acc := by
                rw [hshape] ; exact List.mem_cons_of_mem _ hbt
              exact hacc b hbacc hbr
          | Idle =>
            dsimp only
            refine ih x.start _ ?_
            intro b hb hbr
            rcases List.mem_cons.mp hb with rfl | hbt
            · exact absurd hbr (by simp)
            · have hbacc : b ∈ acc := by
                rw [hshape] ; exact List.mem_cons_of_mem _ hbt
              exact hacc b hbacc hbr
        · rw [heq]
          cases hmx : mode_of_entry x with
          | Break =>
            dsimp only
            by_cases hthr : (cfg.long_break_min : Int) * 60 ≤ x.duration
            · rw [if_pos hthr]
              exact hacc
            · rw [if_neg hthr]
              refine ih x.start _ ?_
              intro b hb hbr
              rcases List.mem_cons.mp hb with rfl | hbt
              · simpa using not_le.mp hthr
              · exact hacc b hbt hbr
          | Work =>
            dsimp only
            refine ih x.start _ ?_
            intro b hb hbr
            rcases List.mem_cons.mp hb with rfl | hbt
            · exact absurd hbr (by simp)
            · exact hacc b hbt hbr
          | Idle =>
            dsimp only
            refine ih x.start _ ?_
            intro b hb hbr
            rcases List.mem_cons.mp hb with rfl | hbt
            · exact absurd hbr (by simp)
            · exact hacc b hbt hbr

/-- Claim C3: during the streak walk, whenever merging the next entry
leaves the most recent history bucket a Break bucket whose accumulated
duration reaches or exceeds long_break_min times 60 seconds, that bucket
is dropped and the walk stops at that point; consequently the streak
history the pomodoro count is computed from never contains a Break bucket
at or above the threshold. -/
theorem claim_streak_boundary (cfg : PomodoroConfig) (ls st d : Int)
    (x : TimeEntry) (xs : List TimeEntry)
    (acc rest : List (PomodoroMode × Int))
    (hstop : x.stop = some st) (hgap : ¬ 120 < ls - st)
    (hmerge : mergeBucket acc x = (PomodoroMode.Break, d) :: rest)
    (hthr : (cfg.long_break_min : Int) * 60 ≤ d) :
    walkStreak cfg ls (x :: xs) acc = rest ∧
    ∀ (ls2 : Int) (es : List TimeEntry) (b : PomodoroMode × Int),
      b ∈ streak_history cfg ls2 es → b.1 = PomodoroMode.Break →
      b.2 < (cfg.long_break_min : Int) * 60 := by
  constructor
  · rw [walkStreak, hstop]
    dsimp only
    rw [if_neg hgap, hmerge]
    dsimp only
    rw [if_pos hthr]
  · intro ls2 es b hb hbr
    unfold streak_history at hb
    rw [List.mem_reverse] at hb
    exact walkStreak_break_bound cfg es ls2 [] (by simp) b hb hbr

theorem claim_streak_boundary_witness :
    longBreakEntry.stop = some 0 ∧
    ¬ (120 : Int) < 0 - 0 ∧
    mergeBucket [] longBreakEntry = [(PomodoroMode.Break, 900)] ∧
    (defaultConfig.long_break_min : Int) * 60 ≤ 900 ∧
    (walkStreak defaultConfig 0 [longBreakEntry] [] = [] ∧
    ∀ (ls2 : Int) (es : List TimeEntry) (b : PomodoroMode × Int),
      b ∈ streak_history defaultConfig ls2 es → b.1 = PomodoroMode.Break →
      b.2 < (defaultConfig.long_break_min : Int) * 60) :=
  ⟨rfl, by decide, rfl, by decide,
    claim_streak_boundary defaultConfig 0 0 900 longBreakEntry [] [] []
      rfl (by decide) rfl (by decide)⟩

/-- Claim C4, amended: for the two-entry scenario (a closed 25-minute work
entry from T to T plus 25 minutes with duration 1500, immediately followed
by a running work entry started at T plus 25 minutes) with the default
25-minute pomodoro, reconstruction yields phase Work, pomodoro count 1,
and phase finish time T plus 25 minutes: the closed same-phase fragment's
1500 seconds are subtracted from the nominal 1500-second budget, so the
running fragment is due immediately, not at T plus 50 minutes. -/
theorem claim_two_entry_scenario (T now : Int) (s : PomodoroState) :
    (update defaultConfig
      (okTickEnv (Except.ok [scenarioClosed T, scenarioRunning T]) now)
      s).state.mode = PomodoroMode.Work ∧
    (update defaultConfig
      (okTickEnv (Except.ok [scenarioClosed T, scenarioRunning T]) now)
      s).state.npomodoros = 1 ∧
    (update defaultConfig
      (okTickEnv (Except.ok [scenarioClosed T, scenarioRunning T]) now)
      s).state.finish_time = T + 1500 := by
  have hstop : (scenarioClosed T).stop = some (T + 1500) := rfl
  have hmerge : mergeBucket [] (scenarioClosed T) =
      [(PomodoroMode.Work, 1500)] := rfl
  have hwalk : walkStreak defaultConfig (T + 1500) [scenarioClosed T] [] =
      [(PomodoroMode.Work, 1500)] := by
    rw [walkStreak, hstop]
    dsimp only
    rw [if_neg (by omega : ¬ (120 : Int) < T + 1500 - (T + 1500)), hmerge]
    dsimp only
    rw [walkStreak]
  have hu : update defaultConfig
      (okTickEnv (Except.ok [scenarioClosed T, scenarioRunning T]) now) s =
      notification_step
        (reconstructed_state defaultConfig (scenarioRunning T)
          [scenarioClosed T] none s)
        now (Except.ok ()) (Except.ok ()) (Except.ok ()) := rfl
  have hps := notification_step_preserves
    (reconstructed_state defaultConfig (scenarioRunning T)
      [scenarioClosed T] none s)
    now (Except.ok ()) (Except.ok ()) (Except.ok ())
  have hstart : (scenarioRunning T).start = T + 1500 := rfl
  have hmode : mode_of_entry (scenarioRunning T) = PomodoroMode.Work := rfl
  have hrec : reconstructed_state defaultConfig (scenarioRunning T)
      [scenarioClosed T] none s =
      { s with
          mode := PomodoroMode.Work,
          npomodoros := 1,
          finish_time := T + 1500,
          task_finish_time := none } := by
    unfold reconstructed_state streak_history
    rw [hstart, hmode, hwalk]
    simp [phase_duration, nominal_duration, defaultConfig]
    try omega
  rw [hrec] at hps
  rw [hu, hrec]
  obtain ⟨h1, h2, h3, _⟩ := hps
  rw [h1, h2, h3]
  exact ⟨rfl, rfl, rfl⟩

/-- Claim C4 is false as stated: in the two-entry scenario with T = 0 the
computed phase finish time is 1500 seconds (T plus 25 minutes), not the
claimed T plus 50 minutes (3000); phase and count match the claim. -/
theorem claim_two_entry_scenario_cex :
    (update defaultConfig
      (okTickEnv (Except.ok [scenarioClosed 0, scenarioRunning 0]) 1500)
      zeroState).state.mode = PomodoroMode.Work ∧
    (update defaultConfig
      (okTickEnv (Except.ok [scenarioClosed 0, scenarioRunning 0]) 1500)
      zeroState).state.npomodoros = 1 ∧
    (update defaultConfig
      (okTickEnv (Except.ok [scenarioClosed 0, scenarioRunning 0]) 1500)
      zeroState).state.finish_time = 1500 ∧
    (update defaultConfig
      (okTickEnv (Except.ok [scenarioClosed 0, scenarioRunning 0]) 1500)
      zeroState).state.finish_time ≠ 0 + 50 * 60 := by
  decide

/-- Claim C8 is false as stated for cycles that abort on a notifier error:
starting from a state whose task counter is 1, a cycle whose phase overrun
fires but whose dbus backend fails skips the counter bookkeeping, leaving
the task counter at 1 even though the recomputed task finish time is
absent and the phase overrun is active. -/
theorem claim_task_counter_cex :
    (update defaultConfig
      ⟨Except.ok [scenarioRunning 0], 4000, Except.error (), Except.ok (),
        Except.ok ()⟩
      ⟨0, 0, 1, PomodoroMode.Work, 3000, some 10⟩).state.task_finish_time
        = none ∧
    (update defaultConfig
      ⟨Except.ok [scenarioRunning 0], 4000, Except.error (), Except.ok (),
        Except.ok ()⟩
      ⟨0, 0, 1, PomodoroMode.Work, 3000, some 10⟩).state.finish_time
        - 4000 < 0 ∧
    (update defaultConfig
      ⟨Except.ok [scenarioRunning 0], 4000, Except.error (), Except.ok (),
        Except.ok ()⟩
      ⟨0, 0, 1, PomodoroMode.Work, 3000, some 10⟩).state.ntnotifications
        = 1 := by
  decide

end Toggdoro
